import Mathlib

/-!
Shallow embedding of the SvelteKit development-server orchestration core:
`packages/kit/src/exports/vite/dev/index.js` and
`packages/kit/src/exports/vite/dev/default_environment.js`.

Platform collaborators (the filesystem, timers, the Vite dev server, the
static asset server) are modelled as explicit parameters; machine effects
(dispatching to an execution environment, websocket notifications,
incremental sync work) are reified as values so that theorems can talk
about which effects occur.
-/

namespace KitDev

/-- An HTTP response as the dev middleware observes and produces it:
a status code and a body. -/
structure Response where
  status : Nat
  body : String
deriving DecidableEq, Repr

/-- A thrown JavaScript error as `update_manifest` stores it in
`manifest_error`.  The `message` may be absent: the source guards it with
`manifest_error.message ?? 'Invalid routes'`. -/
structure JsError where
  message : Option String
deriving DecidableEq, Repr

/-- A route of the manifest as the dev router consumes it: `pattern.exec`
is modelled as a Boolean test on the URL string, and `environment` is the
optional execution-environment name (`route?.environment ?? 'ssr'`). -/
structure Route where
  pattern : String → Bool
  environment : Option String

/-- Shape of `ManifestData` as the dev router consumes it: the ordered list of routes. -/
structure ManifestData where
  routes : List Route

/-- Definition `error_template` from `dev` (index.js, inside the routing middleware):
replace every occurrence of the status placeholder with the stringified
status, then every occurrence of the message placeholder with the message. -/
def error_template (error_page : String) (status : Nat) (message : String) : String :=
  (error_page.replace "%sveltekit.status%" (toString status)).replace
    "%sveltekit.error.message%" message

/-- The linear route scan
`manifest_data.routes.find((route) => route.pattern.exec(req.url))`. -/
def find_route (routes : List Route) (url : String) : Option Route :=
  routes.find? (fun r => r.pattern url)

/-- Outcome of the routing middleware: the response written to the client,
and the name of the execution environment whose `dispatchFetch` was
invoked, if any was. -/
structure RouterOutcome where
  response : Response
  dispatched : Option String

/-- The tail of the routing middleware in `dev` (after `getRequest`):
if a manifest error is active, render the error template with status 500
and stop; otherwise find the first route whose pattern matches `req.url`,
resolve its environment (`route?.environment ?? 'ssr'`), dispatch, and if
the dispatched response is a 404 retry the static middleware (modelled by
`static_file`, `none` meaning the static middleware misses and calls its
`next`, which writes the rendered response). -/
def route_request (error_page : String) (manifest_error : Option JsError)
    (manifest : ManifestData) (envs : String → Response)
    (static_file : Option Response) (url : String) : RouterOutcome :=
  match manifest_error with
  | some e =>
    { response := { status := 500,
                    body := error_template error_page 500 (e.message.getD "Invalid routes") },
      dispatched := none }
  | none =>
    let route := find_route manifest.routes url
    let env_name := (route.bind Route.environment).getD "ssr"
    let rendered := envs env_name
    { response := if rendered.status == 404 then static_file.getD rendered else rendered,
      dispatched := some env_name }

/-- A websocket message sent to connected clients via `vite.ws.send`. -/
inductive WsMessage
  | fullReload
  | errorMsg (message : String)
deriving DecidableEq, Repr

/-- The mutable module state owned by `dev`: the current manifest (absent
until the first successful build) and the current manifest error. -/
structure DevState where
  manifest_data : Option ManifestData
  manifest_error : Option JsError

/-- Function `update_manifest` from `dev`.  The call to `sync.create` is modelled by
its result `create_result`: on success the manifest is (re)assigned and a
prior error is cleared with a full-reload broadcast; on a throw the
assignment never happens, the error is recorded and an error message is
broadcast. -/
def update_manifest (create_result : Except JsError ManifestData) (st : DevState) :
    DevState × List WsMessage :=
  match create_result with
  | .ok m =>
    ({ manifest_data := some m, manifest_error := none },
      if st.manifest_error.isSome then [WsMessage.fullReload] else [])
  | .error e =>
    ({ st with manifest_error := some e },
      [WsMessage.errorMsg (e.message.getD "Invalid routes")])

/-- Timer semantics of `debounce(update_manifest)` for add/unlink bursts:
given the ordered arrival times of watched add/unlink events, each call
clears any pending timer and arms a fresh one 100ms out; an armed deadline
fires only if no further event arrives strictly before it.  Returns the
times at which the debounced `update_manifest` actually runs. -/
def debounce_rebuild_times : List Nat → List Nat
  | [] => []
  | [t] => [t + 100]
  | t₁ :: t₂ :: rest =>
    if t₂ < t₁ + 100 then debounce_rebuild_times (t₂ :: rest)
    else (t₁ + 100) :: debounce_rebuild_times (t₂ :: rest)

/-- JavaScript `String.prototype.startsWith` (and the `file.startsWith`
checks of the watcher filter), modelled on the underlying character
lists so that concrete instances evaluate. -/
def starts_with (p s : String) : Bool :=
  p.data.isPrefixOf s.data

/-- Scanner behind `basename`: accumulate the current component, resetting
at every separator. -/
def basename_aux : List Char → List Char → List Char
  | [], acc => acc.reverse
  | c :: rest, acc =>
    if c = '/' then basename_aux rest [] else basename_aux rest (c :: acc)

/-- Behavior of `path.basename` on posix paths: the last `/`-separated component. -/
def basename (file : String) : String :=
  String.mk (basename_aux file.data [])

/-- The file-path configuration `svelte_config.kit.files` as the watcher
handlers read it. -/
structure FilesConfig where
  routes : String
  params : String
  hooksClient : String
  hooksServer : String
  appTemplate : String
  errorTemplate : String
  serviceWorker : String

/-- The path filter of `watch`: files under the routes or params
directories (directory path plus `path.sep`) or under the client-hooks
prefix (no separator appended in the source). -/
def watched_file (cfg : FilesConfig) (file : String) : Bool :=
  starts_with (cfg.routes ++ "/") file || starts_with (cfg.params ++ "/") file ||
    starts_with cfg.hooksClient file

/-- The kind of a chokidar watcher event (the `all` handler receives every
kind). -/
inductive WatchKind
  | add
  | unlink
  | change
deriving DecidableEq, Repr

/-- The observable work a watcher event can trigger in `dev`. -/
inductive WatchAction
  | scheduleRebuild
  | rebuild
  | incrementalUpdate (file : String)
  | fullReload
  | syncServer
  | restart
deriving DecidableEq, Repr

/-- The ambient flags the watcher handlers consult: whether the debounce
timer handle is non-null, and the `restarting` flag. -/
structure WatcherState where
  timeoutPending : Bool
  restarting : Bool
deriving DecidableEq, Repr

/-- One watcher event run through every handler `dev` registers, in
registration order: the watched add/unlink handler (`debounce`, modelled
as arming the timer and emitting `scheduleRebuild`), the watched change
handler (skip when the timer is pending or `restarting`, else
`sync.update` on the single file), the app-template change handler
(full-reload unless `restarting`; only registered when the template is not
`index.html`), the `all` handler (`sync.server` for the app template,
error template, service-worker or server-hooks files), and the
`svelte.config.js` change handler (sets `restarting` and restarts). -/
def handle_event (cfg : FilesConfig) (st : WatcherState) (kind : WatchKind)
    (file : String) : WatcherState × List WatchAction :=
  let p1 :=
    if (kind == WatchKind.add || kind == WatchKind.unlink) && watched_file cfg file then
      ({ st with timeoutPending := true }, [WatchAction.scheduleRebuild])
    else (st, ([] : List WatchAction))
  let st1 := p1.1
  let acts2 :=
    if kind == WatchKind.change && watched_file cfg file &&
        !(st1.timeoutPending || st1.restarting) then
      [WatchAction.incrementalUpdate file]
    else []
  let acts3 :=
    if (cfg.appTemplate != "index.html") && (kind == WatchKind.change) &&
        (file == cfg.appTemplate) && !st1.restarting then
      [WatchAction.fullReload]
    else []
  let acts4 :=
    if file == cfg.appTemplate || file == cfg.errorTemplate ||
        starts_with cfg.serviceWorker file || starts_with cfg.hooksServer file then
      [WatchAction.syncServer]
    else []
  if kind == WatchKind.change && basename file == "svelte.config.js" then
    ({ st1 with restarting := true }, p1.2 ++ acts2 ++ acts3 ++ acts4 ++ [WatchAction.restart])
  else (st1, p1.2 ++ acts2 ++ acts3 ++ acts4)

/-- The debounce timer firing: clears the handle and runs the debounced
`update_manifest`. -/
def fire_timer (st : WatcherState) : WatcherState × List WatchAction :=
  if st.timeoutPending then ({ st with timeoutPending := false }, [WatchAction.rebuild])
  else (st, [])

/-- Behavior of `new URL(base + req.url).pathname` for path-shaped request URLs: the
part of the URL before the first query or fragment delimiter (platform URL
parsing, modelled only as far as the router consumes it). -/
def pathname (url : String) : String :=
  String.mk (url.data.takeWhile (fun c => (c != '?') && (c != '#')))

/-- Value of a hexadecimal digit, for percent-decoding. -/
def hex_digit : Char → Option Nat := fun c =>
  if '0' ≤ c ∧ c ≤ '9' then some (c.toNat - '0'.toNat)
  else if 'a' ≤ c ∧ c ≤ 'f' then some (c.toNat - 'a'.toNat + 10)
  else if 'A' ≤ c ∧ c ≤ 'F' then some (c.toNat - 'A'.toNat + 10)
  else none

/-- Modelled from the spec: the platform `decodeURI` applied to the
request pathname — well-formed percent-escapes are decoded back to
characters, anything else passes through (the platform throws on a
malformed escape; no claim exercises that case). -/
def percent_decode : List Char → List Char
  | [] => []
  | '%' :: a :: b :: rest =>
    match hex_digit a, hex_digit b with
    | some hi, some lo => Char.ofNat (16 * hi + lo) :: percent_decode rest
    | _, _ => '%' :: a :: b :: percent_decode rest
  | c :: rest => c :: percent_decode rest

/-- The `decoded` request path of the routing middleware:
`decodeURI(new URL(base + req.url).pathname)`. -/
def decoded_pathname (url : String) : String :=
  String.mk (percent_decode (pathname url).data)

/-- Route selection as the spec words it: the first route whose pattern
matches the DECODED request path.  For comparison with `find_route`, which
the source applies to the raw `req.url`. -/
def find_route_by_decoded (routes : List Route) (url : String) : Option Route :=
  routes.find? (fun r => r.pattern (decoded_pathname url))

/-- A concrete default-layout file configuration used by witnesses and
counterexamples. -/
def cfg₀ : FilesConfig :=
  { routes := "src/routes", params := "src/params", hooksClient := "src/hooks.client",
    hooksServer := "src/hooks.server", appTemplate := "src/app.html",
    errorTemplate := "src/error.html", serviceWorker := "src/service-worker" }

/-- The filesystem primitives the asset middleware consults
(`fs.existsSync`, `fs.statSync(file).isDirectory()`, `fs.readdirSync`),
over `/`-split path-segment lists. -/
structure AssetFs where
  fileExists : List String → Bool
  isDirectory : List String → Bool
  readdir : List String → List String

/-- Core of `has_correct_case`, structurally recursive on the REVERSED
list of the path components below the assets root: `[]` means the walk
reached the assets root (`file === assets`, success); otherwise the head
is `path.basename(file)`, which must appear exactly — case included — in
`fs.readdirSync(path.dirname(file))`, after which the walk continues from
the parent directory. -/
def has_correct_case_from (readdir : List String → List String)
    (assets : List String) : List String → Bool
  | [] => true
  | b :: parents =>
    (readdir (assets ++ parents.reverse)).contains b &&
      has_correct_case_from readdir assets parents

/-- Function `has_correct_case(file, assets)` from index.js, for
`file = assets ++ rest`: walk upward from the file to the assets root,
at each level requiring the exact-case name in the parent directory's
listing.  Only `readdir` listings are consulted — no symlink-resolving
canonicalization. -/
def has_correct_case (readdir : List String → List String)
    (assets rest : List String) : Bool :=
  has_correct_case_from readdir assets rest.reverse

/-- The asset branch of the first dev middleware, for a decoded request
path under the assets prefix (`rest` is the part after the prefix, split
into segments): the file is handed to the asset server iff it exists, is
not a directory, and `has_correct_case` holds for it. -/
def serves_asset (afs : AssetFs) (assets rest : List String) : Bool :=
  afs.fileExists (assets ++ rest) && !afs.isDirectory (assets ++ rest) &&
    has_correct_case afs.readdir assets rest

/-- The spec's wording of the case-verification walk: every path component
below the assets root appears character-for-character in the listing of
the directory formed by the components before it. -/
def case_matches_listing (readdir : List String → List String)
    (assets rest : List String) : Prop :=
  ∀ i (h : i < rest.length),
    (readdir (assets ++ rest.take i)).contains (rest.get ⟨i, h⟩) = true

/-- A concrete filesystem with one asset `static/Logo.png`, for the C4
witness. -/
def afs₀ : AssetFs :=
  { fileExists := fun p => p == ["static", "Logo.png"],
    isDirectory := fun p => p == ["static"],
    readdir := fun p => if p == ["static"] then ["Logo.png"] else [] }

/-- Prefix of a string before the first occurrence of a pattern:
`source.slice(0, source.indexOf(body))` of the padding computation (the
body does occur in the wrapper source). -/
def prefix_before_aux (pat : List Char) : List Char → List Char
  | [] => []
  | c :: rest =>
    if pat.isPrefixOf (c :: rest) then [] else c :: prefix_before_aux pat rest

/-- JavaScript `split` on a single-character separator, over characters:
the separator-free chunks; the list is one longer than the number of
separators. -/
def split_char (sep : Char) : List Char → List (List Char)
  | [] => [[]]
  | c :: rest =>
    if c = sep then [] :: split_char sep rest
    else
      match split_char sep rest with
      | [] => [[c]]
      | h :: t => (c :: h) :: t

/-- Modelled from the spec: the source text
`new AsyncFunction('a', 'b', body).toString()` — a platform behavior not
in the repository.  The engine renders an async wrapper function whose
parameter list is followed by a line break before the closing parenthesis
and whose body is framed by line breaks, so the body starts on the third
line. -/
def asyncFunctionSource (params body : String) : String :=
  "async function anonymous(" ++ params ++ "\n) \x7b\n" ++ body ++ "\n\x7d"

/-- Constant `asyncFunctionDeclarationPaddingLineCount` from default_environment.js:
`source.slice(0, source.indexOf(body)).split('\n').length - 1` for the
wrapper source of a probe body. -/
def asyncFunctionDeclarationPaddingLineCount : Nat :=
  (split_char '\n'
    (prefix_before_aux "/*code*/".data (asyncFunctionSource "a,b" "/*code*/").data)).length - 1

/-- A source map as `processSourceMap` handles it: only `mappings` is
rewritten; every other field (represented by `sources`) is carried over by
`Object.assign`. -/
structure SourceMap where
  mappings : String
  sources : List String
deriving DecidableEq, Repr

/-- Function `processSourceMap` from the NodeDevEnvironment runner options: prefix
the mappings with one `;` (an empty generated line) per wrapper padding
line. -/
def processSourceMap (map : SourceMap) : SourceMap :=
  { map with
    mappings := String.mk (List.replicate asyncFunctionDeclarationPaddingLineCount ';') ++
      map.mappings }

/-- Number of lines preceding the body in a wrapper source, as the spec
words the offset: the count of line breaks before the body's first
character. -/
def lines_preceding (source body : String) : Nat :=
  (prefix_before_aux body.data source.data).count '\n'

/-- Modelled from the spec: the tail of the `SCHEME` test of
`src/utils/url.js` (not among the analyzed sources) — scheme characters
(letters, digits, `+`, `-`, `.`) up to a terminating `:`. -/
def scheme_tail : List Char → Bool
  | [] => false
  | c :: rest =>
    if c = ':' then true
    else (c.isAlphanum || c == '+' || c == '-' || c == '.') && scheme_tail rest

/-- Modelled from the spec: the `SCHEME` regular expression test — whether
a string begins with a URL scheme: an ASCII letter followed by scheme
characters and a `:`. -/
def scheme_test (s : String) : Bool :=
  match s.data with
  | [] => false
  | c :: rest => c.isAlpha && scheme_tail rest

/-- The argument of the patched global fetch: a string URL, or any
non-string `RequestInfo` (the guard only fires for strings). -/
inductive FetchInfo
  | str (s : String)
  | nonString
deriving DecidableEq, Repr

/-- The replacement `globalThis.fetch` installed by `dev`: a string
argument failing the SCHEME test throws — the saved original fetch is
never called — and every other argument is forwarded unchanged to the
original fetch (`orig`, returning an abstract response). -/
def patched_fetch {α : Type} (orig : FetchInfo → Option String → α)
    (info : FetchInfo) (init : Option String) : Except String α :=
  match info with
  | FetchInfo.str s =>
    if !scheme_test s then
      Except.error ("Cannot use relative URL (" ++ s ++
        ") with global fetch — use `event.fetch` instead: https://kit.svelte.dev/docs/web-standards#fetch-apis")
    else Except.ok (orig info init)
  | FetchInfo.nonString => Except.ok (orig info init)

end KitDev

namespace KitDev

/-- Over a burst (each event less than 100ms after its predecessor) the
debounced timer is cancelled and re-armed by every event, so only the last
deadline survives; the last element bounds the whole burst. -/
theorem debounce_rebuild_times_aux :
    ∀ ts : List Nat, ts.Chain' (fun a b => a ≤ b ∧ b < a + 100) → ts ≠ [] →
      debounce_rebuild_times ts = [ts.getLastD 0 + 100] ∧ ∀ t ∈ ts, t ≤ ts.getLastD 0 := by
  intro ts
  induction ts with
  | nil => intro _ h; exact absurd rfl h
  | cons t₁ rest ih =>
    intro hchain _
    cases rest with
    | nil =>
      refine ⟨rfl, ?_⟩
      intro t ht
      simp only [List.mem_singleton] at ht
      simp [ht, List.getLastD]
    | cons t₂ rest2 =>
      rw [List.chain'_cons] at hchain
      obtain ⟨⟨h12, hlt⟩, hchain2⟩ := hchain
      obtain ⟨ih1, ih2⟩ := ih hchain2 (by simp)
      have hlast : (t₁ :: t₂ :: rest2).getLastD 0 = (t₂ :: rest2).getLastD 0 := by
        simp [List.getLastD_cons]
      refine ⟨?_, ?_⟩
      · rw [debounce_rebuild_times, if_pos hlt, ih1, hlast]
      · intro t ht
        rw [hlast]
        rcases List.mem_cons.mp ht with h | h
        · exact h ▸ le_trans h12 (ih2 t₂ (List.mem_cons_self t₂ rest2))
        · exact ih2 t h

/-- C3: for a nonempty sequence of watched add/unlink events in which each
event arrives less than 100ms after the previous one, exactly one
execution of `update_manifest` occurs, at the last event's deadline —
strictly after every event of the burst; each intermediate event cancelled
and re-armed the single pending timer. -/
theorem debounce_coalesces (ts : List Nat) (hne : ts ≠ [])
    (hburst : ts.Chain' (fun a b => a ≤ b ∧ b < a + 100)) :
    debounce_rebuild_times ts = [ts.getLastD 0 + 100] ∧
      ∀ t ∈ ts, t < ts.getLastD 0 + 100 := by
  obtain ⟨h1, h2⟩ := debounce_rebuild_times_aux ts hburst hne
  exact ⟨h1, fun t ht => Nat.lt_of_le_of_lt (h2 t ht) (Nat.lt_add_of_pos_right (by omega))⟩

/-- Witness for C3 at the burst 0, 50, 120: a single rebuild fires at 220. -/
theorem debounce_coalesces_witness :
    debounce_rebuild_times [0, 50, 120] = [220] :=
  (debounce_coalesces [0, 50, 120] (by decide) (by norm_num [List.chain'_cons])).1

/-- C7: for a change event on a watched file (one that is not also the app
or error template, a service-worker or server-hooks file, or a svelte
config file): if the debounce timer is pending or `restarting` is set, the
event performs no work at all; otherwise it performs exactly one
incremental `sync.update` scoped to that file — in particular no full
manifest rebuild is scheduled or run. -/
theorem change_event_incremental (cfg : FilesConfig) (st : WatcherState) (file : String)
    (hw : watched_file cfg file = true)
    (h3 : (file == cfg.appTemplate) = false)
    (h4 : (file == cfg.errorTemplate) = false)
    (h5 : starts_with cfg.serviceWorker file = false)
    (h6 : starts_with cfg.hooksServer file = false)
    (h7 : (basename file == "svelte.config.js") = false) :
    ((st.timeoutPending || st.restarting) = true →
      handle_event cfg st WatchKind.change file = (st, [])) ∧
    (st.timeoutPending = false → st.restarting = false →
      handle_event cfg st WatchKind.change file =
        (st, [WatchAction.incrementalUpdate file])) := by
  constructor
  · intro hskip
    simp [handle_event, hw, h3, h4, h5, h6, h7, hskip]
  · intro ht hr
    simp [handle_event, hw, h3, h4, h5, h6, h7, ht, hr]

/-- Witness for C7: a change to a route file with no pending timer and no
restart in progress yields exactly the incremental update for that file. -/
theorem change_event_incremental_witness :
    handle_event cfg₀ ⟨false, false⟩ WatchKind.change "src/routes/about/+page.svelte" =
      (⟨false, false⟩, [WatchAction.incrementalUpdate "src/routes/about/+page.svelte"]) :=
  (change_event_incremental cfg₀ ⟨false, false⟩ "src/routes/about/+page.svelte"
    (by decide) (by decide) (by decide) (by decide) (by decide) (by decide)).2 rfl rfl

/-- C8 counterexample: after a change to `svelte.config.js` sets the
`restarting` flag, a subsequent change event on the server-hooks file
still triggers `sync.server` — server-artifact regeneration is NOT
suppressed by the flag, contradicting the claim that no change-triggered
work other than the restart is ever executed afterwards. -/
theorem restarting_not_fully_suppressing :
    (handle_event cfg₀ ⟨false, false⟩ WatchKind.change "/app/svelte.config.js").1.restarting
        = true ∧
    WatchAction.syncServer ∈
      (handle_event cfg₀
        (handle_event cfg₀ ⟨false, false⟩ WatchKind.change "/app/svelte.config.js").1
        WatchKind.change "src/hooks.server.js").2 := by
  decide

/-- C8 (amended): once `restarting` is set it stays set across every
subsequent watcher event, and no subsequent event performs an incremental
update or emits a full-reload notification; however, events on the
template / service-worker / server-hooks files still regenerate server
artifacts, and add/unlink events still arm the debounced rebuild. -/
theorem restarting_suppresses (cfg : FilesConfig) (st : WatcherState) (kind : WatchKind)
    (file f : String) (hr : st.restarting = true) :
    (handle_event cfg st kind file).1.restarting = true ∧
    WatchAction.incrementalUpdate f ∉ (handle_event cfg st kind file).2 ∧
    WatchAction.fullReload ∉ (handle_event cfg st kind file).2 := by
  simp only [handle_event, hr]
  split_ifs <;> simp_all

/-- Witness for C8 (amended): with `restarting` set, a change event on a
route file leaves the flag set (and, per the theorem, performs no
incremental update). -/
theorem restarting_suppresses_witness :
    (handle_event cfg₀ ⟨false, true⟩ WatchKind.change "src/routes/a/+page.svelte").1.restarting
      = true :=
  (restarting_suppresses cfg₀ ⟨false, true⟩ WatchKind.change "src/routes/a/+page.svelte"
    "src/routes/a/+page.svelte" rfl).1

/-- C1: while a `ManifestBuildError` is active (`manifest_error` non-null)
the router short-circuits before any route matching — the outcome does not
depend on the manifest, the environments or the static middleware, and no
dispatch occurs — and responds with status 500 and the configured error
page in which the status placeholder is replaced by "500" and the message
placeholder by the failure message, or 'Invalid routes' when absent. -/
theorem manifest_error_short_circuit (error_page : String) (e : JsError)
    (manifest : ManifestData) (envs : String → Response)
    (static_file : Option Response) (url : String) :
    route_request error_page (some e) manifest envs static_file url =
      { response := { status := 500,
                      body := error_template error_page 500 (e.message.getD "Invalid routes") },
        dispatched := none } := rfl

/-- C2: a failed `sync.create` leaves the published manifest unchanged and
records the thrown error; a subsequent successful rebuild replaces the
manifest and clears the error back to null. -/
theorem update_manifest_atomic (st : DevState) (e : JsError) (m : ManifestData) :
    (update_manifest (Except.error e) st).1.manifest_data = st.manifest_data ∧
    (update_manifest (Except.error e) st).1.manifest_error = some e ∧
    (update_manifest (Except.ok m) (update_manifest (Except.error e) st).1).1.manifest_data
      = some m ∧
    (update_manifest (Except.ok m) (update_manifest (Except.error e) st).1).1.manifest_error
      = none :=
  ⟨rfl, rfl, rfl, rfl⟩

/-- The linear scan returns the route at the least matching index: if the
route at index `i` matches and every earlier route does not, `find_route`
selects exactly it. -/
theorem find_route_eq_of_first_match :
    ∀ (routes : List Route) (url : String) (i : Nat) (hi : i < routes.length),
      (routes.get ⟨i, hi⟩).pattern url = true →
      (∀ j (hj : j < routes.length), j < i → (routes.get ⟨j, hj⟩).pattern url = false) →
      find_route routes url = some (routes.get ⟨i, hi⟩) := by
  intro routes url
  induction routes with
  | nil => intro i hi; exact absurd hi (by simp)
  | cons r rest ih =>
    intro i hi hmatch hearlier
    cases i with
    | zero =>
      exact List.find?_cons_of_pos rest hmatch
    | succ i0 =>
      have hr : r.pattern url = false := hearlier 0 (by simp) (Nat.succ_pos i0)
      have htail := ih i0 (by simpa using hi) hmatch
        (fun j hj hji => hearlier (j + 1) (by simpa using hj) (by omega))
      have hneg : ¬ (fun q => q.pattern url) r = true := by simp [hr]
      calc find_route (r :: rest) url = find_route rest url :=
            List.find?_cons_of_neg rest hneg
        _ = some (rest.get ⟨i0, by simpa using hi⟩) := htail

/-- C5 counterexample: for the request URL `/ab?x=1` — whose decoded path
is `/ab` — and a manifest with a single route whose pattern matches
exactly `/ab` and names environment `special`, that route is the first
route matching the decoded path, yet the router (which applies patterns to
the raw `req.url`) selects no route and dispatches to `ssr`. -/
theorem route_selection_uses_raw_url :
    ((find_route_by_decoded
        [{ pattern := fun s => s == "/ab", environment := some "special" }] "/ab?x=1").map
      Route.environment = some (some "special")) ∧
    (route_request "page" none
        ⟨[{ pattern := fun s => s == "/ab", environment := some "special" }]⟩
        (fun n => { status := 200, body := n }) none "/ab?x=1").dispatched = some "ssr" :=
  ⟨rfl, rfl⟩

/-- C5 (amended): the router scans the manifest's routes linearly in
declared order and selects the first route whose pattern matches the raw
request URL (`req.url`, query string included — not the decoded pathname);
when several routes match, the one earliest in manifest order handles the
request, deterministically. -/
theorem router_first_match_wins (error_page : String) (manifest : ManifestData)
    (envs : String → Response) (static_file : Option Response) (url : String)
    (i : Nat) (hi : i < manifest.routes.length)
    (hmatch : (manifest.routes.get ⟨i, hi⟩).pattern url = true)
    (hearlier : ∀ j (hj : j < manifest.routes.length), j < i →
      (manifest.routes.get ⟨j, hj⟩).pattern url = false) :
    find_route manifest.routes url = some (manifest.routes.get ⟨i, hi⟩) ∧
    (route_request error_page none manifest envs static_file url).dispatched =
      some ((manifest.routes.get ⟨i, hi⟩).environment.getD "ssr") := by
  have hfind := find_route_eq_of_first_match manifest.routes url i hi hmatch hearlier
  exact ⟨hfind, by simp [route_request, hfind]⟩

/-- Witness for C5 (amended): two routes both matching `/a/static`; the
earlier one (environment `env1`) is selected and dispatched to. -/
theorem router_first_match_wins_witness :
    (route_request "page" none
        ⟨[{ pattern := fun s => s == "/a/static", environment := some "env1" },
          { pattern := fun s => s == "/a/static", environment := some "env2" }]⟩
        (fun n => { status := 200, body := n }) none "/a/static").dispatched = some "env1" :=
  (router_first_match_wins "page"
    ⟨[{ pattern := fun s => s == "/a/static", environment := some "env1" },
      { pattern := fun s => s == "/a/static", environment := some "env2" }]⟩
    (fun n => { status := 200, body := n }) none "/a/static" 0 (by decide) rfl
    (fun j hj hji => absurd hji (Nat.not_lt_zero j))).2

/-- C6 counterexample: with an empty manifest no route matches, yet the
router still invokes an execution environment's dispatch — the baseline
`ssr` environment — and relays its (non-404) response; it does not go
straight to static serving or a framework 404 without dispatching. -/
theorem no_match_still_dispatches :
    (route_request "page" none ⟨[]⟩ (fun n => { status := 200, body := n }) none
        "/nope").dispatched = some "ssr" ∧
    (route_request "page" none ⟨[]⟩ (fun n => { status := 200, body := n }) none
        "/nope").response = { status := 200, body := "ssr" } :=
  ⟨rfl, rfl⟩

/-- C6 (amended): with no manifest error, the router always dispatches: to
the `ssr` environment when no route matches or the matched route declares
no environment, and to the matched route's declared environment otherwise;
whenever the dispatched response has status 404 the static middleware is
retried before that response is returned, and a non-404 dispatched
response is returned as is. -/
theorem router_dispatch_fallback (error_page : String) (manifest : ManifestData)
    (envs : String → Response) (static_file : Option Response) (url : String) :
    (find_route manifest.routes url = none →
      (route_request error_page none manifest envs static_file url).dispatched = some "ssr") ∧
    (∀ r, find_route manifest.routes url = some r →
      (route_request error_page none manifest envs static_file url).dispatched =
        some (r.environment.getD "ssr")) ∧
    ((envs (((find_route manifest.routes url).bind Route.environment).getD "ssr")).status = 404 →
      (route_request error_page none manifest envs static_file url).response =
        static_file.getD
          (envs (((find_route manifest.routes url).bind Route.environment).getD "ssr"))) ∧
    ((envs (((find_route manifest.routes url).bind Route.environment).getD "ssr")).status ≠ 404 →
      (route_request error_page none manifest envs static_file url).response =
        envs (((find_route manifest.routes url).bind Route.environment).getD "ssr")) := by
  refine ⟨fun h => ?_, fun r h => ?_, fun h => ?_, fun h => ?_⟩ <;>
    simp [route_request, h]

/-- Witness for C6 (amended): no route matches and the `ssr` environment
answers 404, so the static middleware's file is served instead. -/
theorem router_dispatch_fallback_witness :
    (route_request "page" none ⟨[]⟩ (fun n => { status := 404, body := n })
        (some { status := 200, body := "static hit" }) "/asset.png").response =
      { status := 200, body := "static hit" } :=
  (router_dispatch_fallback "page" ⟨[]⟩ (fun n => { status := 404, body := n })
    (some { status := 200, body := "static hit" }) "/asset.png").2.2.1 rfl

/-- Appending one more path component to the walk adds exactly one check:
the new basename against the listing of the old endpoint. -/
theorem has_correct_case_concat (readdir : List String → List String)
    (assets ys : List String) (y : String) :
    has_correct_case readdir assets (ys ++ [y]) =
      ((readdir (assets ++ ys)).contains y && has_correct_case readdir assets ys) := by
  simp [has_correct_case, has_correct_case_from]

/-- The upward walk of `has_correct_case` succeeds exactly when every path
component below the assets root appears in its parent directory's listing. -/
theorem has_correct_case_iff (readdir : List String → List String) (assets : List String) :
    ∀ rest : List String, has_correct_case readdir assets rest = true ↔
      case_matches_listing readdir assets rest := by
  intro rest
  induction rest using List.reverseRecOn with
  | nil =>
    constructor
    · intro _ i h
      exact absurd h (by simp)
    · intro _
      rfl
  | append_singleton ys y ih =>
    rw [has_correct_case_concat, Bool.and_eq_true, ih]
    unfold case_matches_listing
    constructor
    · rintro ⟨hy, hys⟩ i h
      rcases Nat.lt_or_ge i ys.length with hi | hi
      · rw [List.take_append_of_le_length (Nat.le_of_lt hi)]
        have hget : (ys ++ [y]).get ⟨i, h⟩ = ys.get ⟨i, hi⟩ := List.get_append i hi
        rw [hget]
        exact hys i hi
      · have hieq : i = ys.length := by
          have hlen : i < ys.length + 1 := by simpa using h
          omega
        subst hieq
        rw [List.take_append_of_le_length (Nat.le_refl _), List.take_length]
        have hget : (ys ++ [y]).get ⟨ys.length, h⟩ = y := by
          simp
        rw [hget]
        exact hy
    · intro hall
      refine ⟨?_, fun i hi => ?_⟩
      · have := hall ys.length (by simp)
        rwa [List.take_append_of_le_length (Nat.le_refl _), List.take_length,
          show (ys ++ [y]).get ⟨ys.length, by simp⟩ = y from by simp] at this
      · have := hall i (by simp; omega)
        rwa [List.take_append_of_le_length (Nat.le_of_lt hi),
          show (ys ++ [y]).get ⟨i, by simp; omega⟩ = ys.get ⟨i, hi⟩ from
            List.get_append i hi] at this

/-- C4: a request whose decoded path falls under the assets prefix is
handed to the asset server only if the target file exists, is not a
directory, and `has_correct_case` holds for it; and `has_correct_case`
holds if and only if, walking from the file up to the assets root, each
name appears character-for-character in its parent directory's listing —
with only directory listings consulted, never symlink-resolving
canonicalization. -/
theorem asset_serving_case_sensitive (afs : AssetFs) (assets rest : List String) :
    (serves_asset afs assets rest = true →
      afs.fileExists (assets ++ rest) = true ∧ afs.isDirectory (assets ++ rest) = false ∧
        has_correct_case afs.readdir assets rest = true) ∧
    (has_correct_case afs.readdir assets rest = true ↔
      case_matches_listing afs.readdir assets rest) := by
  constructor
  · intro h
    simp only [serves_asset, Bool.and_eq_true, Bool.not_eq_true'] at h
    exact ⟨h.1.1, h.1.2, h.2⟩
  · exact has_correct_case_iff afs.readdir assets rest

/-- Witness for C4: the asset `static/Logo.png` of the concrete filesystem
`afs₀` is served, hence exists, is not a directory and is correctly cased. -/
theorem asset_serving_case_sensitive_witness :
    afs₀.fileExists (["static"] ++ ["Logo.png"]) = true ∧
    afs₀.isDirectory (["static"] ++ ["Logo.png"]) = false ∧
    has_correct_case afs₀.readdir ["static"] ["Logo.png"] = true :=
  (asset_serving_case_sensitive afs₀ ["static"] ["Logo.png"]).1 (by decide)

/-- C9: `processSourceMap` returns a map whose mappings are the original
mappings prefixed by exactly `asyncFunctionDeclarationPaddingLineCount`
semicolons, with every other field preserved; and that count equals the
number of lines preceding the body in the source text of an
AsyncFunction-constructed wrapper — concretely 2 — so reported positions
are shifted by the fixed number of lines the wrapper consumes. -/
theorem process_source_map_padding (map : SourceMap) :
    (processSourceMap map).mappings =
      String.mk (List.replicate asyncFunctionDeclarationPaddingLineCount ';') ++
        map.mappings ∧
    (processSourceMap map).sources = map.sources ∧
    asyncFunctionDeclarationPaddingLineCount =
      lines_preceding (asyncFunctionSource "a,b" "/*code*/") "/*code*/" ∧
    asyncFunctionDeclarationPaddingLineCount = 2 :=
  ⟨rfl, rfl, by decide, by decide⟩

/-- C10: after `dev` patches the global fetch, a string argument without a
URL scheme yields an error naming the offending URL and pointing at
`event.fetch`, independently of the original fetch (which is never
called); a scheme-bearing string or a non-string argument is forwarded
unchanged to the original fetch. -/
theorem patched_fetch_guard {α : Type} (orig orig2 : FetchInfo → Option String → α)
    (s : String) (init : Option String) :
    (scheme_test s = false →
      patched_fetch orig (FetchInfo.str s) init =
        Except.error ("Cannot use relative URL (" ++ s ++
          ") with global fetch — use `event.fetch` instead: https://kit.svelte.dev/docs/web-standards#fetch-apis") ∧
      patched_fetch orig (FetchInfo.str s) init = patched_fetch orig2 (FetchInfo.str s) init) ∧
    (scheme_test s = true →
      patched_fetch orig (FetchInfo.str s) init = Except.ok (orig (FetchInfo.str s) init)) ∧
    patched_fetch orig FetchInfo.nonString init =
      Except.ok (orig FetchInfo.nonString init) := by
  refine ⟨fun h => ?_, fun h => ?_, rfl⟩ <;> simp [patched_fetch, h]

/-- Witness for C10: the relative URL `/relative/path` is rejected with
the documented error message. -/
theorem patched_fetch_guard_witness :
    patched_fetch (fun _ _ => (0 : Nat)) (FetchInfo.str "/relative/path") none =
      Except.error ("Cannot use relative URL (" ++ "/relative/path" ++
        ") with global fetch — use `event.fetch` instead: https://kit.svelte.dev/docs/web-standards#fetch-apis") :=
  ((patched_fetch_guard (fun _ _ => (0 : Nat)) (fun _ _ => (0 : Nat)) "/relative/path" none).1
    (by decide)).1

end KitDev
